import Mathlib

/-!
Verification of the cosmic-ray tagger `cosmic::CosmicPCAxisTagger::produce`
(src/larana/CosmicRemoval/CosmicPCAxisTagger_module.cc) against its
natural-language specification.

Shallow embedding conventions:
* All scalar quantities (`float`/`double`/`int` in the C++) are modelled as
  exact rationals `ℚ`; the claims under study are about comparisons, branch
  structure and exact endpoint values, none of which hinge on floating-point
  rounding.
* The two calls to `std::sqrt` in the source (line 184:
  `eigenVal0 = sqrt(pcAxis->getEigenValues()[0])`, and lines 245-246:
  `transRMS = sqrt(ev1^2 + ev1^2)`) produce irrational values, so the axis
  record carries the already-square-rooted quantities `eigenVal0` and
  `transRMS` as rational inputs.  `sqrt` is strictly monotone with
  `sqrt 0 = 0`, so the source's positivity tests `eigenVal0 > 0.` and
  `transRMS > 0.` and the product `3. * eigenVal0` are represented faithfully.
* art-framework association lookups are resolved ahead of time: a
  `PFParticle` carries the lists of axes, clusters (each a list of hits) and
  space points that `FindManyP::at` would return for it.
-/

/-- A 3-vector of rationals, standing for `TVector3`. -/
structure Vec3 where
  x : ℚ
  y : ℚ
  z : ℚ
deriving DecidableEq, Repr

/-- Componentwise subtraction, `TVector3` operator `-`. -/
def Vec3.sub (a b : Vec3) : Vec3 :=
  ⟨a.x - b.x, a.y - b.y, a.z - b.z⟩

/-- Componentwise addition, `TVector3` operator `+`. -/
def Vec3.add (a b : Vec3) : Vec3 :=
  ⟨a.x + b.x, a.y + b.y, a.z + b.z⟩

/-- Scalar multiple, `TVector3` operator `*`. -/
def Vec3.smul (c : ℚ) (v : Vec3) : Vec3 :=
  ⟨c * v.x, c * v.y, c * v.z⟩

/-- Inner product, `TVector3::Dot`. -/
def Vec3.dot (a b : Vec3) : ℚ :=
  a.x * b.x + a.y * b.y + a.z * b.z

/-- A reconstructed 2D hit: the two timing fields read by the tagger
(`recob::Hit::PeakTimeMinusRMS`, `recob::Hit::PeakTimePlusRMS`). -/
structure Hit where
  peakTimeMinusRMS : ℚ
  peakTimePlusRMS : ℚ
deriving DecidableEq, Repr

/-- A principal-component axis (`recob::PCAxis`), restricted to the fields the
tagger reads.  `eigenVal0` is the source's `eigenVal0`, i.e. the *square root*
of `getEigenValues()[0]` (module line 184); `transRMS` is the source's
`transRMS = sqrt(ev1^2 + ev1^2)` (module lines 245-246); both are carried
pre-square-rooted, see the file header.  `dir` is row 0 of
`getEigenVectors()`, `avePos` is `getAvePosition()`. -/
structure PCAxis where
  id : ℕ
  avePos : Vec3
  eigenVal0 : ℚ
  transRMS : ℚ
  dir : Vec3
deriving DecidableEq, Repr

/-- A particle-flow object together with its association-resolved inputs:
the `FindManyP` results for PCAxes, clusters (flattened to their hit lists,
combining `clusterAssns` and `clusterHitAssns`) and space points. -/
structure PFParticle where
  axes : List PCAxis
  clusters : List (List Hit)
  spacePoints : List Vec3
deriving DecidableEq, Repr

/-- Configuration constants of the module: `fDetectorWidthTicks`,
`fTPCXBoundary/fTPCYBoundary/fTPCZBoundary`, `fDetHalfHeight`, `fDetWidth`,
`fDetLength`. -/
structure TaggerConfig where
  detectorWidthTicks : ℚ
  tpcXBoundary : ℚ
  tpcYBoundary : ℚ
  tpcZBoundary : ℚ
  detHalfHeight : ℚ
  detWidth : ℚ
  detLength : ℚ
deriving DecidableEq, Repr

/-- The tag kinds of `anab::CosmicTagID_t` used by this module.
`outsideDrift` stands for the source's `kOutsideDrift_Partial`. -/
inductive CosmicTagID where
  | notTagged
  | outsideDrift
  | geomXX
  | geomYY
  | geomXY
  | geomXZ
  | geomYZ
  | geomZZ
  | geomX
  | geomY
  | geomZ
deriving DecidableEq, Repr

/-- One output record `anab::CosmicTag`: two endpoints, a score and a tag id. -/
structure CosmicTag where
  endPt1 : Vec3
  endPt2 : Vec3
  score : ℚ
  tagID : CosmicTagID
deriving DecidableEq, Repr

/-- The mutable pair `(isCosmic, tag_id)` threaded through `produce`
(module lines 176-177). -/
abbrev TagState := ℤ × CosmicTagID

/-- Axis pair reordering, module lines 167-168:
`if (pcAxisVec.size() > 1 && pcAxisVec.front()->getID() > pcAxisVec.back()->getID())
   std::reverse(pcAxisVec.begin(), pcAxisVec.end());`. -/
def reorderAxes (axes : List PCAxis) : List PCAxis :=
  match axes with
  | a :: b :: rest =>
    if a.id > ((b :: rest).getLast (by simp)).id then (a :: b :: rest).reverse
    else a :: b :: rest
  | other => other

/-- The per-hit out-of-time test, module lines 227-228:
`hit->PeakTimeMinusRMS() < fDetectorWidthTicks ||
 hit->PeakTimePlusRMS() > 2. * fDetectorWidthTicks`. -/
def hitOutOfTime (cfg : TaggerConfig) (h : Hit) : Bool :=
  decide (h.peakTimeMinusRMS < cfg.detectorWidthTicks) ||
    decide (2 * cfg.detectorWidthTicks < h.peakTimePlusRMS)

/-- The inner hit loop of the timing check (module lines 221-233): the first
out-of-time hit sets `isCosmic = 1`, `tag_id = kOutsideDrift_Partial` and
breaks out of the hit loop of the current cluster. -/
def scanHits (cfg : TaggerConfig) (st : TagState) : List Hit → TagState
  | [] => st
  | h :: rest =>
    if hitOutOfTime cfg h then (1, CosmicTagID.outsideDrift)
    else scanHits cfg st rest

/-- The outer cluster loop of the timing check (module lines 211-234): every
cluster is scanned, the state carries over between clusters. -/
def timingScan (cfg : TaggerConfig) (st : TagState) (clusters : List (List Hit)) : TagState :=
  clusters.foldl (scanHits cfg) st

/-- Axis-derived fallback start point, module line 194:
`pcAxisStart = vertexPosition - maxArcLen * vertexDirection` with
`maxArcLen = 3. * eigenVal0` (line 185). -/
def fallbackStart (axis : PCAxis) : Vec3 :=
  Vec3.sub axis.avePos (Vec3.smul (3 * axis.eigenVal0) axis.dir)

/-- Axis-derived fallback end point, module line 195:
`pcAxisEnd = vertexPosition + maxArcLen * vertexDirection`. -/
def fallbackEnd (axis : PCAxis) : Vec3 :=
  Vec3.add axis.avePos (Vec3.smul (3 * axis.eigenVal0) axis.dir)

/-- Signed arc length of a space point along the principal direction,
module lines 259-261: `(spacePointPos - vertexPosition).Dot(vertexDirection)`. -/
def arcLenTo (axis : PCAxis) (p : Vec3) : ℚ :=
  Vec3.dot (Vec3.sub p axis.avePos) axis.dir

/-- One step of the extremal space-point search, module lines 258-272: state
`((arcLengthToFirstHit, pcAxisStart), (arcLengthToLastHit, pcAxisEnd))`. -/
def extremalStep (axis : PCAxis) (st : (ℚ × Vec3) × (ℚ × Vec3)) (p : Vec3) :
    (ℚ × Vec3) × (ℚ × Vec3) :=
  let a := arcLenTo axis p
  let mn := if a < st.1.1 then (a, p) else st.1
  let mx := if st.2.1 < a then (a, p) else st.2
  (mn, mx)

/-- The extremal space-point search loop over all space points. -/
def extremalScan (axis : PCAxis) (pts : List Vec3) (st : (ℚ × Vec3) × (ℚ × Vec3)) :
    (ℚ × Vec3) × (ℚ × Vec3) :=
  pts.foldl (extremalStep axis) st

/-- The projected endpoints: the extremal search started from the bounds
`(9999., pcAxisStart)` and `(-9999., pcAxisEnd)` (module lines 255-256), the
fallback endpoints being the values `pcAxisStart`/`pcAxisEnd` hold on entry. -/
def projectedEndpoints (axis : PCAxis) (pts : List Vec3) : Vec3 × Vec3 :=
  let r := extremalScan axis pts ((9999, fallbackStart axis), (-9999, fallbackEnd axis))
  (r.1.2, r.2.2)

/-- Proximity to the x faces, module lines 296-299:
`fDetWidth - p.x < fTPCXBoundary || p.x < fTPCXBoundary`. -/
def nearXb (cfg : TaggerConfig) (p : Vec3) : Bool :=
  decide (cfg.detWidth - p.x < cfg.tpcXBoundary) || decide (p.x < cfg.tpcXBoundary)

/-- Proximity to the y faces, module lines 303-308:
`fDetHalfHeight - p.y < fTPCYBoundary || fDetHalfHeight + p.y < fTPCYBoundary`. -/
def nearYb (cfg : TaggerConfig) (p : Vec3) : Bool :=
  decide (cfg.detHalfHeight - p.y < cfg.tpcYBoundary) ||
    decide (cfg.detHalfHeight + p.y < cfg.tpcYBoundary)

/-- Proximity to the z faces, module lines 312-315:
`fDetLength - p.z < fTPCZBoundary || p.z < fTPCZBoundary`. -/
def nearZb (cfg : TaggerConfig) (p : Vec3) : Bool :=
  decide (cfg.detLength - p.z < cfg.tpcZBoundary) || decide (p.z < cfg.tpcZBoundary)

/-- `exitEnd1`/`exitEnd2` of module lines 318-319: `nBdX[i] || nBdY[i]`. -/
def exitEnd (cfg : TaggerConfig) (p : Vec3) : Bool :=
  nearXb cfg p || nearYb cfg p

/-- The boundary decision table of module lines 318-354, abstracted over the
six proximity booleans `nBdX[0], nBdX[1], nBdY[0], nBdY[1], nBdZ[0], nBdZ[1]`
and the incoming `(isCosmic, tag_id)` state. -/
def boundaryDecision (x0 x1 y0 y1 z0 z1 : Bool) (isC : ℤ) (tag : CosmicTagID) :
    ℤ × CosmicTagID :=
  let exitEnd1 := x0 || y0
  let exitEnd2 := x1 || y1
  let exitEndZ1 := exitEnd1 && z1
  let exitEndZ2 := exitEnd1 && z0
  if (exitEnd1 && exitEnd2) || exitEndZ1 || exitEndZ2 then
    (2,
      if x0 && x1 then CosmicTagID.geomXX
      else if y0 && y1 then CosmicTagID.geomYY
      else if (x0 || x1) && (y0 || y1) then CosmicTagID.geomXY
      else if (x0 || x1) && (z0 || z1) then CosmicTagID.geomXZ
      else CosmicTagID.geomYZ)
  else if z0 && z1 then (3, CosmicTagID.geomZZ)
  else if (x0 || y0 || z0) != (x1 || y1 || z1) then
    (4,
      if x0 || x1 then CosmicTagID.geomX
      else if y0 || y1 then CosmicTagID.geomY
      else if z0 || z1 then CosmicTagID.geomZ
      else tag)
  else (isC, tag)

/-- The boundary decision table applied to the two track endpoints. -/
def classifyBoundary (cfg : TaggerConfig) (p1 p2 : Vec3) (isC : ℤ) (tag : CosmicTagID) :
    ℤ × CosmicTagID :=
  boundaryDecision (nearXb cfg p1) (nearXb cfg p2) (nearYb cfg p1) (nearYb cfg p2)
    (nearZb cfg p1) (nearZb cfg p2) isC tag

/-- The score computation of module lines 367-373:
`cosmicScore = isCosmic > 0 ? 1. : 0.;` then `0.4` for level 3 and `0.5` for
level 4. -/
def scoreOf (isC : ℤ) : ℚ :=
  let base : ℚ := if 0 < isC then 1 else 0
  if isC = 3 then 2/5
  else if isC = 4 then 1/2
  else base

/-- Per-object tagging given the canonical axis: the timing scan
(module lines 211-234) followed by the boundary section
(lines 242-356, guarded by `isCosmic == 0 && !spacePointVec.empty()` and by
`eigenVal0 > 0. && transRMS > 0.`), emitting the `anab::CosmicTag` of
lines 358-376. -/
def tagObject (cfg : TaggerConfig) (axis : PCAxis) (clusters : List (List Hit))
    (pts : List Vec3) : CosmicTag :=
  let st := timingScan cfg (0, CosmicTagID.notTagged) clusters
  if st.1 = 0 ∧ pts ≠ [] then
    if 0 < axis.eigenVal0 ∧ 0 < axis.transRMS then
      let pe := projectedEndpoints axis pts
      let r := classifyBoundary cfg pe.1 pe.2 st.1 st.2
      { endPt1 := pe.1, endPt2 := pe.2, score := scoreOf r.1, tagID := r.2 }
    else
      { endPt1 := fallbackStart axis, endPt2 := fallbackEnd axis,
        score := scoreOf st.1, tagID := st.2 }
  else
    { endPt1 := fallbackStart axis, endPt2 := fallbackEnd axis,
      score := scoreOf st.1, tagID := st.2 }

/-- Per-object processing including axis selection: objects with no
associated axis are skipped (module line 160), otherwise the front of the
reordered axis vector is the canonical axis (module line 173). -/
def processObject (cfg : TaggerConfig) (obj : PFParticle) : Option CosmicTag :=
  match reorderAxes obj.axes with
  | [] => none
  | ax :: _ => some (tagObject cfg ax obj.clusters obj.spacePoints)

/-- The three output collections of the module: the `anab::CosmicTag` vector,
the PFParticle-to-tag association list (PFParticle index, tag index) and the
PCAxis-to-tag association list (axis, tag index). -/
structure Outputs where
  tags : List CosmicTag
  pfAssns : List (ℕ × ℕ)
  axisAssns : List (PCAxis × ℕ)
deriving DecidableEq, Repr

/-- One iteration of the outer PFParticle loop (module lines 153-385): skip
when no axis is associated, otherwise emit the tag, one PFParticle-to-tag
association (`util::CreateAssn` at line 378, pointing at the last pushed tag)
and one axis-to-tag association per element of the (reordered) axis vector
(lines 382-384). -/
def produceStep (cfg : TaggerConfig) (st : Outputs) (p : ℕ × PFParticle) : Outputs :=
  match reorderAxes p.2.axes with
  | [] => st
  | ax :: restAxes =>
    let tag := tagObject cfg ax p.2.clusters p.2.spacePoints
    { tags := st.tags ++ [tag],
      pfAssns := st.pfAssns ++ [(p.1, st.tags.length)],
      axisAssns := st.axisAssns ++ (ax :: restAxes).map (fun a => (a, st.tags.length)) }

/-- Event-level input: `pfParticles = none` models an invalid PFParticle
handle (module lines 112-120); the two booleans model the validity of the
cluster and PCAxis collection handles (lines 124-136). -/
structure EventInput where
  pfParticles : Option (List PFParticle)
  clustersValid : Bool
  pcAxesValid : Bool
deriving DecidableEq, Repr

/-- The whole `produce` call: invalid handles short-circuit to empty outputs
(module lines 115-120 and 131-136), otherwise the PFParticle loop runs. -/
def produceEvent (cfg : TaggerConfig) (ev : EventInput) : Outputs :=
  match ev.pfParticles with
  | none => ⟨[], [], []⟩
  | some objs =>
    if ev.pcAxesValid && ev.clustersValid then
      objs.enum.foldl (produceStep cfg) ⟨[], [], []⟩
    else ⟨[], [], []⟩

/-! ### Claim-side (specification) formulations

The following definitions restate formulas exactly as the specification words
them, to be compared against the behaviour of the source-derived definitions
above. -/

/-- The spec's priority-rule-1 trigger:
`(exit(start) AND exit(end)) OR (exit(start) AND nearZ(end)) OR
 (exit(start) AND nearZ(start))` — both cross terms gated on `exit(start)`. -/
def rule1Fires (cfg : TaggerConfig) (p1 p2 : Vec3) : Bool :=
  (exitEnd cfg p1 && exitEnd cfg p2) || (exitEnd cfg p1 && nearZb cfg p2) ||
    (exitEnd cfg p1 && nearZb cfg p1)

/-- The spec's rule-1 tag chain over the six proximity booleans: both-X-near
gives XX; else both-Y-near gives YY; else X-near on either and Y-near on
either gives XY; else X-near on either and Z-near on either gives XZ;
else YZ. -/
def chainTagSpec (x0 x1 y0 y1 z0 z1 : Bool) : CosmicTagID :=
  if x0 && x1 then CosmicTagID.geomXX
  else if y0 && y1 then CosmicTagID.geomYY
  else if (x0 || x1) && (y0 || y1) then CosmicTagID.geomXY
  else if (x0 || x1) && (z0 || z1) then CosmicTagID.geomXZ
  else CosmicTagID.geomYZ

/-- The spec's rule-1 tag chain applied to the two endpoints. -/
def rule1TagSpec (cfg : TaggerConfig) (p1 p2 : Vec3) : CosmicTagID :=
  chainTagSpec (nearXb cfg p1) (nearXb cfg p2) (nearYb cfg p1) (nearYb cfg p2)
    (nearZb cfg p1) (nearZb cfg p2)

/-- The spec's score table: a pure function of the tag kind.  `NotTagged ↦ 0`,
`Geometry_ZZ ↦ 0.4`, `Geometry_X/Y/Z ↦ 0.5`, `OutsideDrift_Partial` and the
remaining Geometry kinds `↦ 1`. -/
def tagScoreSpec : CosmicTagID → ℚ
  | CosmicTagID.notTagged => 0
  | CosmicTagID.geomZZ => 2/5
  | CosmicTagID.geomX => 1/2
  | CosmicTagID.geomY => 1/2
  | CosmicTagID.geomZ => 1/2
  | CosmicTagID.outsideDrift => 1
  | CosmicTagID.geomXX => 1
  | CosmicTagID.geomYY => 1
  | CosmicTagID.geomXY => 1
  | CosmicTagID.geomXZ => 1
  | CosmicTagID.geomYZ => 1

/-- The spec's extremal point: the value and the earliest-encountered point of
minimal `f`-value ("ties keep the earliest-encountered extremal point"). -/
def firstMin (f : Vec3 → ℚ) : List Vec3 → Option (ℚ × Vec3)
  | [] => none
  | p :: rest =>
    match firstMin f rest with
    | none => some (f p, p)
    | some (m, w) => if f p ≤ m then some (f p, p) else some (m, w)

/-- The spec's extremal point: the value and the earliest-encountered point of
maximal `f`-value. -/
def firstMax (f : Vec3 → ℚ) : List Vec3 → Option (ℚ × Vec3)
  | [] => none
  | p :: rest =>
    match firstMax f rest with
    | none => some (f p, p)
    | some (m, w) => if m ≤ f p then some (f p, p) else some (m, w)

/-- The minimum component of the extremal scan taken in isolation (the
`arcLengthToFirstHit`/`pcAxisStart` updates of module lines 263-266). -/
def minScanQ (f : Vec3 → ℚ) : ℚ × Vec3 → List Vec3 → ℚ × Vec3
  | st, [] => st
  | st, p :: rest => minScanQ f (if f p < st.1 then (f p, p) else st) rest

/-- The maximum component of the extremal scan taken in isolation (the
`arcLengthToLastHit`/`pcAxisEnd` updates of module lines 268-271). -/
def maxScanQ (f : Vec3 → ℚ) : ℚ × Vec3 → List Vec3 → ℚ × Vec3
  | st, [] => st
  | st, p :: rest => maxScanQ f (if st.1 < f p then (f p, p) else st) rest

/-! ### Concrete sample inputs used in witnesses and counterexamples -/

/-- A sample configuration: drift window 100 ticks, all margins 5, detector
half-height 10, width 10, length 10. -/
def cfgA : TaggerConfig := ⟨100, 5, 5, 5, 10, 10, 10⟩

/-- A sample non-degenerate axis at the origin, principal direction x. -/
def axisA : PCAxis := ⟨0, ⟨0, 0, 0⟩, 1, 1, ⟨1, 0, 0⟩⟩

/-- A sample non-degenerate axis at the detector centre `(5, 0, 5)`. -/
def axisCtr : PCAxis := ⟨0, ⟨5, 0, 5⟩, 1, 1, ⟨1, 0, 0⟩⟩

/-- The axis of id 5 from the spec's axis-selection example. -/
def axisId5 : PCAxis := ⟨5, ⟨0, 0, 0⟩, 1, 1, ⟨1, 0, 0⟩⟩

/-- The axis of id 3 from the spec's axis-selection example. -/
def axisId3 : PCAxis := ⟨3, ⟨0, 0, 0⟩, 1, 1, ⟨1, 0, 0⟩⟩

/-- A hit inside the drift window of `cfgA`. -/
def hitIn : Hit := ⟨150, 150⟩

/-- A hit outside the drift window of `cfgA` (`peakTimeMinusRMS = 0 < 100`). -/
def hitOut : Hit := ⟨0, 0⟩

/-! ### Helper lemmas: the timing scan -/

/-- The inner hit loop sets `(1, outsideDrift)` exactly when some hit of the
cluster is out of time, and otherwise leaves the state unchanged. -/
theorem scanHits_eq (cfg : TaggerConfig) (st : TagState) (hits : List Hit) :
    scanHits cfg st hits =
      if hits.any (hitOutOfTime cfg) then (1, CosmicTagID.outsideDrift) else st := by
  induction hits with
  | nil => simp [scanHits]
  | cons h rest ih =>
    by_cases hh : hitOutOfTime cfg h = true
    · simp [scanHits, hh]
    · simp [scanHits, hh, ih]

/-- The whole timing scan sets `(1, outsideDrift)` exactly when some hit of
some cluster is out of time, and otherwise leaves the state unchanged. -/
theorem timingScan_eq (cfg : TaggerConfig) (clusters : List (List Hit)) (st : TagState) :
    timingScan cfg st clusters =
      if clusters.any (fun c => c.any (hitOutOfTime cfg)) then (1, CosmicTagID.outsideDrift)
      else st := by
  induction clusters generalizing st with
  | nil => simp [timingScan]
  | cons c cs ih =>
    have h1 : timingScan cfg st (c :: cs) = timingScan cfg (scanHits cfg st c) cs := rfl
    rw [h1, ih, scanHits_eq]
    by_cases hc : c.any (hitOutOfTime cfg) = true <;>
      by_cases hcs : cs.any (fun c => c.any (hitOutOfTime cfg)) = true <;>
        simp [hc, hcs]

/-- Starting from `(0, notTagged)`, the timing scan ends in one of exactly two
states. -/
theorem timingScan_cases (cfg : TaggerConfig) (clusters : List (List Hit)) :
    timingScan cfg (0, CosmicTagID.notTagged) clusters = (0, CosmicTagID.notTagged) ∨
      timingScan cfg (0, CosmicTagID.notTagged) clusters = (1, CosmicTagID.outsideDrift) := by
  rw [timingScan_eq]
  by_cases h : clusters.any (fun c => c.any (hitOutOfTime cfg)) = true <;> simp [h]

/-- If the final cosmic level is `0`, the timing scan left the state alone. -/
theorem timingScan_zero (cfg : TaggerConfig) (clusters : List (List Hit))
    (h : (timingScan cfg (0, CosmicTagID.notTagged) clusters).1 = 0) :
    timingScan cfg (0, CosmicTagID.notTagged) clusters = (0, CosmicTagID.notTagged) := by
  rcases timingScan_cases cfg clusters with h0 | h1
  · exact h0
  · rw [h1] at h; exact absurd h (by decide)

/-- If the final cosmic level is `1`, the timing scan fired. -/
theorem timingScan_one (cfg : TaggerConfig) (clusters : List (List Hit))
    (h : (timingScan cfg (0, CosmicTagID.notTagged) clusters).1 = 1) :
    timingScan cfg (0, CosmicTagID.notTagged) clusters = (1, CosmicTagID.outsideDrift) := by
  rcases timingScan_cases cfg clusters with h0 | h1
  · rw [h0] at h; exact absurd h (by decide)
  · exact h1

/-! ### Helper lemmas: the extremal space-point search -/

/-- The extremal scan decomposes into its independent min and max parts. -/
theorem extremalScan_split (axis : PCAxis) (pts : List Vec3) (st : (ℚ × Vec3) × (ℚ × Vec3)) :
    extremalScan axis pts st =
      (minScanQ (arcLenTo axis) st.1 pts, maxScanQ (arcLenTo axis) st.2 pts) := by
  induction pts generalizing st with
  | nil => simp [extremalScan, minScanQ, maxScanQ]
  | cons p rest ih =>
    have h1 : extremalScan axis (p :: rest) st = extremalScan axis rest (extremalStep axis st p) :=
      rfl
    rw [h1, ih]
    simp only [extremalStep, minScanQ, maxScanQ]

/-- `firstMin` returns `none` only on the empty list. -/
theorem firstMin_eq_none (f : Vec3 → ℚ) (pts : List Vec3) :
    firstMin f pts = none ↔ pts = [] := by
  cases pts with
  | nil => simp [firstMin]
  | cons p rest =>
    simp only [firstMin]
    cases h : firstMin f rest with
    | none => simp
    | some mw =>
      obtain ⟨m, w⟩ := mw
      by_cases hle : f p ≤ m <;> simp [hle]

/-- `firstMax` returns `none` only on the empty list. -/
theorem firstMax_eq_none (f : Vec3 → ℚ) (pts : List Vec3) :
    firstMax f pts = none ↔ pts = [] := by
  cases pts with
  | nil => simp [firstMax]
  | cons p rest =>
    simp only [firstMax]
    cases h : firstMax f rest with
    | none => simp
    | some mw =>
      obtain ⟨m, w⟩ := mw
      by_cases hle : m ≤ f p <;> simp [hle]

/-- `firstMin` yields a member of the list attaining its value, which is a
lower bound of all values. -/
theorem firstMin_spec (f : Vec3 → ℚ) (pts : List Vec3) (m : ℚ) (w : Vec3)
    (h : firstMin f pts = some (m, w)) :
    w ∈ pts ∧ f w = m ∧ ∀ q ∈ pts, m ≤ f q := by
  induction pts generalizing m w with
  | nil => simp [firstMin] at h
  | cons p rest ih =>
    simp only [firstMin] at h
    cases hr : firstMin f rest with
    | none =>
      rw [hr] at h
      simp only [Option.some.injEq, Prod.mk.injEq] at h
      obtain ⟨hm, hw⟩ := h
      have hrest : rest = [] := (firstMin_eq_none f rest).mp hr
      subst hrest hm hw
      refine ⟨List.mem_cons_self _ _, rfl, ?_⟩
      intro q hq
      rcases List.mem_cons.mp hq with rfl | hmem
      · exact le_refl _
      · simp at hmem
    | some mw =>
      obtain ⟨m', w'⟩ := mw
      rw [hr] at h
      obtain ⟨hw'mem, hfw', hmin⟩ := ih m' w' hr
      have h2 : (if f p ≤ m' then some (f p, p) else some (m', w')) = some (m, w) := h
      by_cases hle : f p ≤ m'
      · rw [if_pos hle] at h2
        simp only [Option.some.injEq, Prod.mk.injEq] at h2
        obtain ⟨hm, hw⟩ := h2
        subst hm hw
        refine ⟨List.mem_cons_self _ _, rfl, ?_⟩
        intro q hq
        rcases List.mem_cons.mp hq with rfl | hmem
        · exact le_refl _
        · exact le_trans hle (hmin q hmem)
      · rw [if_neg hle] at h2
        simp only [Option.some.injEq, Prod.mk.injEq] at h2
        obtain ⟨hm, hw⟩ := h2
        subst hm hw
        refine ⟨List.mem_cons_of_mem _ hw'mem, hfw', ?_⟩
        intro q hq
        rcases List.mem_cons.mp hq with rfl | hmem
        · exact le_of_lt (not_le.mp hle)
        · exact hmin q hmem

/-- `firstMax` yields a member of the list attaining its value, which is an
upper bound of all values. -/
theorem firstMax_spec (f : Vec3 → ℚ) (pts : List Vec3) (m : ℚ) (w : Vec3)
    (h : firstMax f pts = some (m, w)) :
    w ∈ pts ∧ f w = m ∧ ∀ q ∈ pts, f q ≤ m := by
  induction pts generalizing m w with
  | nil => simp [firstMax] at h
  | cons p rest ih =>
    simp only [firstMax] at h
    cases hr : firstMax f rest with
    | none =>
      rw [hr] at h
      simp only [Option.some.injEq, Prod.mk.injEq] at h
      obtain ⟨hm, hw⟩ := h
      have hrest : rest = [] := (firstMax_eq_none f rest).mp hr
      subst hrest hm hw
      refine ⟨List.mem_cons_self _ _, rfl, ?_⟩
      intro q hq
      rcases List.mem_cons.mp hq with rfl | hmem
      · exact le_refl _
      · simp at hmem
    | some mw =>
      obtain ⟨m', w'⟩ := mw
      rw [hr] at h
      obtain ⟨hw'mem, hfw', hmax⟩ := ih m' w' hr
      have h2 : (if m' ≤ f p then some (f p, p) else some (m', w')) = some (m, w) := h
      by_cases hle : m' ≤ f p
      · rw [if_pos hle] at h2
        simp only [Option.some.injEq, Prod.mk.injEq] at h2
        obtain ⟨hm, hw⟩ := h2
        subst hm hw
        refine ⟨List.mem_cons_self _ _, rfl, ?_⟩
        intro q hq
        rcases List.mem_cons.mp hq with rfl | hmem
        · exact le_refl _
        · exact le_trans (hmax q hmem) hle
      · rw [if_neg hle] at h2
        simp only [Option.some.injEq, Prod.mk.injEq] at h2
        obtain ⟨hm, hw⟩ := h2
        subst hm hw
        refine ⟨List.mem_cons_of_mem _ hw'mem, hfw', ?_⟩
        intro q hq
        rcases List.mem_cons.mp hq with rfl | hmem
        · exact le_of_lt (not_le.mp hle)
        · exact hmax q hmem

/-- If no value beats the initial bound, the min scan keeps its initial state
(the mechanism behind the `9999.` initialisation of module line 255). -/
theorem minScanQ_const (f : Vec3 → ℚ) (pts : List Vec3) (a₀ : ℚ) (s₀ : Vec3)
    (h : ∀ p ∈ pts, ¬ f p < a₀) :
    minScanQ f (a₀, s₀) pts = (a₀, s₀) := by
  induction pts with
  | nil => rfl
  | cons p rest ih =>
    have hp := h p (List.mem_cons_self p rest)
    simp only [minScanQ, if_neg hp]
    exact ih (fun q hq => h q (List.mem_cons_of_mem p hq))

/-- If no value beats the initial bound, the max scan keeps its initial state
(the mechanism behind the `-9999.` initialisation of module line 256). -/
theorem maxScanQ_const (f : Vec3 → ℚ) (pts : List Vec3) (a₀ : ℚ) (s₀ : Vec3)
    (h : ∀ p ∈ pts, ¬ a₀ < f p) :
    maxScanQ f (a₀, s₀) pts = (a₀, s₀) := by
  induction pts with
  | nil => rfl
  | cons p rest ih =>
    have hp := h p (List.mem_cons_self p rest)
    simp only [maxScanQ, if_neg hp]
    exact ih (fun q hq => h q (List.mem_cons_of_mem p hq))

/-- If some value beats the initial bound, the min scan computes exactly the
earliest-encountered minimum, i.e. agrees with `firstMin`. -/
theorem minScanQ_firstMin (f : Vec3 → ℚ) :
    ∀ (pts : List Vec3) (a₀ : ℚ) (s₀ : Vec3), (∃ p ∈ pts, f p < a₀) →
      ∃ m w, firstMin f pts = some (m, w) ∧ m < a₀ ∧ minScanQ f (a₀, s₀) pts = (m, w) := by
  intro pts
  induction pts with
  | nil => intro a₀ s₀ h; simp at h
  | cons p rest ih =>
    intro a₀ s₀ h
    by_cases hp : f p < a₀
    · by_cases hr : ∃ q ∈ rest, f q < f p
      · obtain ⟨m, w, hfm, hlt, hscan⟩ := ih (f p) p hr
        refine ⟨m, w, ?_, lt_trans hlt hp, ?_⟩
        · have : firstMin f (p :: rest) =
              (if f p ≤ m then some (f p, p) else some (m, w)) := by
            simp only [firstMin, hfm]
          rw [this, if_neg (not_le.mpr hlt)]
        · simp only [minScanQ, if_pos hp]
          exact hscan
      · push_neg at hr
        have hconst : minScanQ f (f p, p) rest = (f p, p) :=
          minScanQ_const f rest (f p) p (fun q hq => not_lt.mpr (hr q hq))
        refine ⟨f p, p, ?_, hp, ?_⟩
        · cases hfr : firstMin f rest with
          | none => simp [firstMin, hfr]
          | some mw =>
            obtain ⟨m', w'⟩ := mw
            obtain ⟨hw'mem, hfw', _⟩ := firstMin_spec f rest m' w' hfr
            have hle : f p ≤ m' := hfw' ▸ hr w' hw'mem
            simp [firstMin, hfr, hle]
        · simp only [minScanQ, if_pos hp]
          exact hconst
    · obtain ⟨q, hq, hlt⟩ := h
      have hq' : q ∈ rest := by
        rcases List.mem_cons.mp hq with rfl | hmem
        · exact absurd hlt hp
        · exact hmem
      obtain ⟨m, w, hfm, hlt', hscan⟩ := ih a₀ s₀ ⟨q, hq', hlt⟩
      refine ⟨m, w, ?_, hlt', ?_⟩
      · have hnle : ¬ f p ≤ m := not_le.mpr (lt_of_lt_of_le hlt' (not_lt.mp hp))
        have : firstMin f (p :: rest) =
            (if f p ≤ m then some (f p, p) else some (m, w)) := by
          simp only [firstMin, hfm]
        rw [this, if_neg hnle]
      · simp only [minScanQ, if_neg hp]
        exact hscan

/-- If some value beats the initial bound, the max scan computes exactly the
earliest-encountered maximum, i.e. agrees with `firstMax`. -/
theorem maxScanQ_firstMax (f : Vec3 → ℚ) :
    ∀ (pts : List Vec3) (a₀ : ℚ) (s₀ : Vec3), (∃ p ∈ pts, a₀ < f p) →
      ∃ m w, firstMax f pts = some (m, w) ∧ a₀ < m ∧ maxScanQ f (a₀, s₀) pts = (m, w) := by
  intro pts
  induction pts with
  | nil => intro a₀ s₀ h; simp at h
  | cons p rest ih =>
    intro a₀ s₀ h
    by_cases hp : a₀ < f p
    · by_cases hr : ∃ q ∈ rest, f p < f q
      · obtain ⟨m, w, hfm, hlt, hscan⟩ := ih (f p) p hr
        refine ⟨m, w, ?_, lt_trans hp hlt, ?_⟩
        · have : firstMax f (p :: rest) =
              (if m ≤ f p then some (f p, p) else some (m, w)) := by
            simp only [firstMax, hfm]
          rw [this, if_neg (not_le.mpr hlt)]
        · simp only [maxScanQ, if_pos hp]
          exact hscan
      · push_neg at hr
        have hconst : maxScanQ f (f p, p) rest = (f p, p) :=
          maxScanQ_const f rest (f p) p (fun q hq => not_lt.mpr (hr q hq))
        refine ⟨f p, p, ?_, hp, ?_⟩
        · cases hfr : firstMax f rest with
          | none => simp [firstMax, hfr]
          | some mw =>
            obtain ⟨m', w'⟩ := mw
            obtain ⟨hw'mem, hfw', _⟩ := firstMax_spec f rest m' w' hfr
            have hle : m' ≤ f p := hfw' ▸ hr w' hw'mem
            simp [firstMax, hfr, hle]
        · simp only [maxScanQ, if_pos hp]
          exact hconst
    · obtain ⟨q, hq, hlt⟩ := h
      have hq' : q ∈ rest := by
        rcases List.mem_cons.mp hq with rfl | hmem
        · exact absurd hlt hp
        · exact hmem
      obtain ⟨m, w, hfm, hlt', hscan⟩ := ih a₀ s₀ ⟨q, hq', hlt⟩
      refine ⟨m, w, ?_, hlt', ?_⟩
      · have hnle : ¬ m ≤ f p := not_le.mpr (lt_of_le_of_lt (not_lt.mp hp) hlt')
        have : firstMax f (p :: rest) =
            (if m ≤ f p then some (f p, p) else some (m, w)) := by
          simp only [firstMax, hfm]
        rw [this, if_neg hnle]
      · simp only [maxScanQ, if_neg hp]
        exact hscan

/-- The projected endpoints are the second components of the two scans. -/
theorem projectedEndpoints_eq (axis : PCAxis) (pts : List Vec3) :
    projectedEndpoints axis pts =
      ((minScanQ (arcLenTo axis) (9999, fallbackStart axis) pts).2,
       (maxScanQ (arcLenTo axis) (-9999, fallbackEnd axis) pts).2) := by
  unfold projectedEndpoints
  rw [extremalScan_split]

/-! ### Helper lemmas: the boundary decision table -/

/-- Priority rule 1 of the boundary decision table: it is taken exactly when
the spec's trigger formula holds over the six proximity booleans; when taken
the level is 2 (score 1) and the tag is the spec's chain; when not taken the
level is 0, 3 or 4 (score 0, 0.4 or 0.5) and the tag one of the non-rule-1
kinds. -/
theorem boundaryDecision_rule1 (x0 x1 y0 y1 z0 z1 : Bool) :
    ((((x0 || y0) && (x1 || y1)) || ((x0 || y0) && z1) || ((x0 || y0) && z0)) = true →
      boundaryDecision x0 x1 y0 y1 z0 z1 0 CosmicTagID.notTagged =
        (2, chainTagSpec x0 x1 y0 y1 z0 z1)) ∧
    ((((x0 || y0) && (x1 || y1)) || ((x0 || y0) && z1) || ((x0 || y0) && z0)) = false →
      ((boundaryDecision x0 x1 y0 y1 z0 z1 0 CosmicTagID.notTagged).1 = 0 ∨
        (boundaryDecision x0 x1 y0 y1 z0 z1 0 CosmicTagID.notTagged).1 = 3 ∨
        (boundaryDecision x0 x1 y0 y1 z0 z1 0 CosmicTagID.notTagged).1 = 4) ∧
      (boundaryDecision x0 x1 y0 y1 z0 z1 0 CosmicTagID.notTagged).2 ∈
        [CosmicTagID.notTagged, CosmicTagID.geomZZ, CosmicTagID.geomX,
          CosmicTagID.geomY, CosmicTagID.geomZ]) := by
  cases x0 <;> cases x1 <;> cases y0 <;> cases y1 <;> cases z0 <;> cases z1 <;> decide

/-- Entering the decision table at level 0 / `notTagged`, the possible
level/tag verdicts. -/
theorem boundaryDecision_combos (x0 x1 y0 y1 z0 z1 : Bool) :
    ((boundaryDecision x0 x1 y0 y1 z0 z1 0 CosmicTagID.notTagged).1 = 2 ∧
      (boundaryDecision x0 x1 y0 y1 z0 z1 0 CosmicTagID.notTagged).2 ∈
        [CosmicTagID.geomXX, CosmicTagID.geomYY, CosmicTagID.geomXY,
          CosmicTagID.geomXZ, CosmicTagID.geomYZ]) ∨
    (boundaryDecision x0 x1 y0 y1 z0 z1 0 CosmicTagID.notTagged =
      (3, CosmicTagID.geomZZ)) ∨
    ((boundaryDecision x0 x1 y0 y1 z0 z1 0 CosmicTagID.notTagged).1 = 4 ∧
      (boundaryDecision x0 x1 y0 y1 z0 z1 0 CosmicTagID.notTagged).2 ∈
        [CosmicTagID.geomX, CosmicTagID.geomY, CosmicTagID.geomZ]) ∨
    (boundaryDecision x0 x1 y0 y1 z0 z1 0 CosmicTagID.notTagged =
      (0, CosmicTagID.notTagged)) := by
  cases x0 <;> cases x1 <;> cases y0 <;> cases y1 <;> cases z0 <;> cases z1 <;> decide

/-- The concrete score values taken by `scoreOf` at the five levels the
module can produce. -/
theorem scoreOf_values :
    scoreOf 0 = 0 ∧ scoreOf 1 = 1 ∧ scoreOf 2 = 1 ∧ scoreOf 3 = 2/5 ∧ scoreOf 4 = 1/2 := by
  refine ⟨?_, ?_, ?_, ?_, ?_⟩ <;> norm_num [scoreOf]

/-- Entering the decision table at level 0 / `notTagged`, the emitted score is
the spec's pure function of the emitted tag kind. -/
theorem boundaryDecision_score (x0 x1 y0 y1 z0 z1 : Bool) :
    scoreOf (boundaryDecision x0 x1 y0 y1 z0 z1 0 CosmicTagID.notTagged).1 =
      tagScoreSpec (boundaryDecision x0 x1 y0 y1 z0 z1 0 CosmicTagID.notTagged).2 := by
  rcases boundaryDecision_combos x0 x1 y0 y1 z0 z1 with ⟨h1, h2⟩ | h | ⟨h1, h2⟩ | h
  · rw [h1]
    simp only [List.mem_cons, List.not_mem_nil, or_false] at h2
    rcases h2 with h2 | h2 | h2 | h2 | h2 <;> rw [h2] <;> norm_num [scoreOf, tagScoreSpec]
  · rw [h]
    norm_num [scoreOf, tagScoreSpec]
  · rw [h1]
    simp only [List.mem_cons, List.not_mem_nil, or_false] at h2
    rcases h2 with h2 | h2 | h2 <;> rw [h2] <;> norm_num [scoreOf, tagScoreSpec]
  · rw [h]
    norm_num [scoreOf, tagScoreSpec]

/-- The spec's score table only takes the four advertised values. -/
theorem tagScoreSpec_range (t : CosmicTagID) :
    tagScoreSpec t = 0 ∨ tagScoreSpec t = 2/5 ∨ tagScoreSpec t = 1/2 ∨ tagScoreSpec t = 1 := by
  cases t <;> norm_num [tagScoreSpec]

/-! ### Helper lemmas: the per-object pipeline -/

/-- When the timing flag is clear, points exist and the axis is
non-degenerate, `tagObject` emits the projected endpoints and the decision
table's verdict. -/
theorem tagObject_boundary (cfg : TaggerConfig) (axis : PCAxis) (clusters : List (List Hit))
    (pts : List Vec3)
    (hflag : (timingScan cfg (0, CosmicTagID.notTagged) clusters).1 = 0)
    (hne : pts ≠ []) (he : 0 < axis.eigenVal0) (ht : 0 < axis.transRMS) :
    tagObject cfg axis clusters pts =
      { endPt1 := (projectedEndpoints axis pts).1,
        endPt2 := (projectedEndpoints axis pts).2,
        score := scoreOf (classifyBoundary cfg (projectedEndpoints axis pts).1
          (projectedEndpoints axis pts).2 0 CosmicTagID.notTagged).1,
        tagID := (classifyBoundary cfg (projectedEndpoints axis pts).1
          (projectedEndpoints axis pts).2 0 CosmicTagID.notTagged).2 } := by
  have hst := timingScan_zero cfg clusters hflag
  simp only [tagObject, hst]
  simp [hne, he, ht]

/-! ### Claim theorems -/

/-- **C5** (confirmed): during the timing scan of one object, the state
becomes `(1, OutsideDrift_Partial)` exactly when some hit of some cluster is
out of time (`peakTimeMinusRMS < driftWindowTicks` OR
`peakTimePlusRMS > 2 * driftWindowTicks`) — in particular an out-of-time
cluster stops only its own hit scan while every subsequent cluster is still
scanned and can trigger; once set the flag is never cleared by later clusters
(it is sticky); and if no hit anywhere is out of time the state stays
`(0, NotTagged)`. -/
theorem c5_timing_filter (cfg : TaggerConfig) (clusters : List (List Hit)) :
    (timingScan cfg (0, CosmicTagID.notTagged) clusters = (1, CosmicTagID.outsideDrift) ↔
      ∃ c ∈ clusters, ∃ h ∈ c, hitOutOfTime cfg h = true) ∧
    (∀ rest : List (List Hit),
      timingScan cfg (1, CosmicTagID.outsideDrift) rest = (1, CosmicTagID.outsideDrift)) ∧
    ((∀ c ∈ clusters, ∀ h ∈ c, hitOutOfTime cfg h = false) →
      timingScan cfg (0, CosmicTagID.notTagged) clusters = (0, CosmicTagID.notTagged)) := by
  refine ⟨?_, ?_, ?_⟩
  · rw [timingScan_eq]
    by_cases hb : clusters.any (fun c => c.any (hitOutOfTime cfg)) = true
    · obtain ⟨c, hc, hca⟩ := List.any_eq_true.mp hb
      obtain ⟨h, hh, hht⟩ := List.any_eq_true.mp hca
      exact iff_of_true (by simp [hb]) ⟨c, hc, h, hh, hht⟩
    · have hbf : clusters.any (fun c => c.any (hitOutOfTime cfg)) = false :=
        Bool.not_eq_true _ ▸ eq_false_of_ne_true hb
      refine iff_of_false ?_ ?_
      · simp [hbf, Prod.ext_iff]
      · rintro ⟨c, hc, h, hh, hht⟩
        exact hb (List.any_eq_true.mpr ⟨c, hc, List.any_eq_true.mpr ⟨h, hh, hht⟩⟩)
  · intro rest
    rw [timingScan_eq]
    exact ite_self _
  · intro hall
    rw [timingScan_eq]
    have hbf : clusters.any (fun c => c.any (hitOutOfTime cfg)) = false := by
      rw [List.any_eq_false]
      intro c hc
      rw [Bool.not_eq_true, List.any_eq_false]
      intro h hh
      rw [Bool.not_eq_true]
      exact hall c hc h hh
    simp [hbf]

/-- Witness for C5 at a concrete input: an out-of-time hit in the middle
cluster triggers the flag even though other clusters are clean. -/
theorem c5_witness :
    timingScan cfgA (0, CosmicTagID.notTagged) [[hitIn], [hitOut], [hitIn]] =
      (1, CosmicTagID.outsideDrift) :=
  (c5_timing_filter cfgA [[hitIn], [hitOut], [hitIn]]).1.mpr
    ⟨[hitOut], by decide, hitOut, by decide, by decide⟩

/-- **C7** (confirmed): for an object with exactly two associated axes, the
pair is swapped into ascending-by-id order exactly when the first-listed axis
has the strictly larger id, and the canonical axis (the head of the reordered
vector) is the smaller-id axis in that case, the first-listed one otherwise. -/
theorem c7_axis_selection (a b : PCAxis) :
    (a.id > b.id → reorderAxes [a, b] = [b, a] ∧ (reorderAxes [a, b]).head? = some b) ∧
    (¬ a.id > b.id → reorderAxes [a, b] = [a, b] ∧ (reorderAxes [a, b]).head? = some a) := by
  constructor
  · intro h
    have hr : reorderAxes [a, b] = [b, a] := by
      simp [reorderAxes, h]
    exact ⟨hr, by rw [hr]; rfl⟩
  · intro h
    have hr : reorderAxes [a, b] = [a, b] := by
      simp [reorderAxes, h]
    exact ⟨hr, by rw [hr]; rfl⟩

/-- Witness for C7 at the spec's concrete example: the axis pair with ids
`(5, 3)` is swapped and the axis with id 3 becomes canonical. -/
theorem c7_witness :
    reorderAxes [axisId5, axisId3] = [axisId3, axisId5] ∧
      (reorderAxes [axisId5, axisId3]).head? = some axisId3 :=
  (c7_axis_selection axisId5 axisId3).1 (by decide)

/-- **C10** (confirmed): whenever the projector branch does not run — timing
flag set, no space points, or degenerate axis (`eigenVal0 ≤ 0` or
`transRMS ≤ 0`, i.e. `e0 ≤ 0` or `t ≤ 0` for the pre-square-rooted inputs) —
the emitted endpoints are the axis-derived fallbacks
`mean - 3*sqrt(e0)*dir` and `mean + 3*sqrt(e0)*dir`; endpoints are thus
always populated. -/
theorem c10_fallback_endpoints (cfg : TaggerConfig) (axis : PCAxis)
    (clusters : List (List Hit)) (pts : List Vec3)
    (h : (timingScan cfg (0, CosmicTagID.notTagged) clusters).1 ≠ 0 ∨ pts = [] ∨
      axis.eigenVal0 ≤ 0 ∨ axis.transRMS ≤ 0) :
    (tagObject cfg axis clusters pts).endPt1 = fallbackStart axis ∧
      (tagObject cfg axis clusters pts).endPt2 = fallbackEnd axis := by
  by_cases h1 : (timingScan cfg (0, CosmicTagID.notTagged) clusters).1 = 0 ∧ pts ≠ []
  · by_cases h2 : 0 < axis.eigenVal0 ∧ 0 < axis.transRMS
    · exfalso
      rcases h with h | h | h | h
      · exact h h1.1
      · exact h1.2 h
      · exact absurd h2.1 (not_lt.mpr h)
      · exact absurd h2.2 (not_lt.mpr h)
    · simp only [tagObject]
      rw [if_pos h1, if_neg h2]
      exact ⟨rfl, rfl⟩
  · simp only [tagObject]
    rw [if_neg h1]
    exact ⟨rfl, rfl⟩

/-- Witness for C10 at a concrete input: an object with no clusters and no
space points gets the fallback endpoints. -/
theorem c10_witness :
    (tagObject cfgA axisA [] []).endPt1 = fallbackStart axisA ∧
      (tagObject cfgA axisA [] []).endPt2 = fallbackEnd axisA :=
  c10_fallback_endpoints cfgA axisA [] [] (Or.inr (Or.inl rfl))

/-- When the projector branch does not run, `tagObject` emits the fallback
endpoints and the timing scan's state. -/
theorem tagObject_notbd (cfg : TaggerConfig) (axis : PCAxis) (clusters : List (List Hit))
    (pts : List Vec3)
    (h : ¬((timingScan cfg (0, CosmicTagID.notTagged) clusters).1 = 0 ∧ pts ≠ []) ∨
      ¬(0 < axis.eigenVal0 ∧ 0 < axis.transRMS)) :
    tagObject cfg axis clusters pts =
      { endPt1 := fallbackStart axis, endPt2 := fallbackEnd axis,
        score := scoreOf (timingScan cfg (0, CosmicTagID.notTagged) clusters).1,
        tagID := (timingScan cfg (0, CosmicTagID.notTagged) clusters).2 } := by
  by_cases h1 : (timingScan cfg (0, CosmicTagID.notTagged) clusters).1 = 0 ∧ pts ≠ []
  · rcases h with h | h
    · exact absurd h1 h
    · simp only [tagObject]
      rw [if_pos h1, if_neg h]
  · simp only [tagObject]
    rw [if_neg h1]

/-- On every input, the emitted score is the spec's pure function of the
emitted tag kind. -/
theorem tagObject_score_pure (cfg : TaggerConfig) (axis : PCAxis)
    (clusters : List (List Hit)) (pts : List Vec3) :
    (tagObject cfg axis clusters pts).score =
      tagScoreSpec (tagObject cfg axis clusters pts).tagID := by
  by_cases h1 : (timingScan cfg (0, CosmicTagID.notTagged) clusters).1 = 0 ∧ pts ≠ []
  · by_cases h2 : 0 < axis.eigenVal0 ∧ 0 < axis.transRMS
    · rw [tagObject_boundary cfg axis clusters pts h1.1 h1.2 h2.1 h2.2]
      exact boundaryDecision_score _ _ _ _ _ _
    · rw [tagObject_notbd cfg axis clusters pts (Or.inr h2)]
      have hst := timingScan_zero cfg clusters h1.1
      rw [hst]
      norm_num [scoreOf, tagScoreSpec]
  · rw [tagObject_notbd cfg axis clusters pts (Or.inl h1)]
    rcases timingScan_cases cfg clusters with hst | hst <;> rw [hst] <;>
      norm_num [scoreOf, tagScoreSpec]

/-! ### Helper lemmas: the event loop -/

/-- Reordering returns the empty list only for the empty list. -/
theorem reorderAxes_nil_iff (l : List PCAxis) : reorderAxes l = [] ↔ l = [] := by
  cases l with
  | nil => simp [reorderAxes]
  | cons a t =>
    cases t with
    | nil => simp [reorderAxes]
    | cons b rest =>
      simp only [reorderAxes]
      by_cases h : a.id > ((b :: rest).getLast (by simp)).id
      · simp [h]
      · simp [h]

/-- Reordering is a permutation: it keeps exactly the original axes. -/
theorem reorderAxes_perm (l : List PCAxis) : (reorderAxes l).Perm l := by
  cases l with
  | nil => exact List.Perm.refl _
  | cons a t =>
    cases t with
    | nil => exact List.Perm.refl _
    | cons b rest =>
      simp only [reorderAxes]
      by_cases h : a.id > ((b :: rest).getLast (by simp)).id
      · rw [if_pos h]
        exact List.reverse_perm _
      · rw [if_neg h]

/-- An object is skipped exactly when it has no associated axis. -/
theorem processObject_none_iff (cfg : TaggerConfig) (obj : PFParticle) :
    processObject cfg obj = none ↔ obj.axes = [] := by
  cases hax : reorderAxes obj.axes with
  | nil =>
    have h0 := (reorderAxes_nil_iff obj.axes).mp hax
    simp only [processObject, hax]
    simp [h0]
  | cons ax rest =>
    have hne : obj.axes ≠ [] := by
      intro h
      rw [h] at hax
      simp [reorderAxes] at hax
    simp only [processObject, hax]
    simp [hne]

/-- On an object with axes, processing emits the tag of the canonical
(reordered-front) axis. -/
theorem processObject_some (cfg : TaggerConfig) (obj : PFParticle) (ax : PCAxis)
    (rest : List PCAxis) (hax : reorderAxes obj.axes = ax :: rest) :
    processObject cfg obj = some (tagObject cfg ax obj.clusters obj.spacePoints) := by
  simp [processObject, hax]

/-- One tag is kept per object with at least one axis. -/
theorem processObject_filterMap_length (cfg : TaggerConfig) (objs : List PFParticle) :
    (objs.filterMap (processObject cfg)).length =
      (objs.filter (fun o => !o.axes.isEmpty)).length := by
  induction objs with
  | nil => rfl
  | cons o rest ih =>
    cases hax : reorderAxes o.axes with
    | nil =>
      have h0 : o.axes = [] := (reorderAxes_nil_iff o.axes).mp hax
      have hpo : processObject cfg o = none := (processObject_none_iff cfg o).mpr h0
      simp [List.filterMap_cons, hpo, List.filter_cons, h0, ih]
    | cons ax rest' =>
      have hpo := processObject_some cfg o ax rest' hax
      have hcond : (!o.axes.isEmpty) = true := by
        cases hax2 : o.axes with
        | nil => rw [hax2] at hax; simp [reorderAxes] at hax
        | cons _ _ => rfl
      simp [List.filterMap_cons, hpo, List.filter_cons, hcond, ih]

/-- Invariant of the PFParticle loop: the tags are the surviving
per-object tags in order; the object-to-tag associations name exactly the
tagged objects' indices with consecutive tag indices; the axis-to-tag
associations name every reordered axis of every tagged object. -/
theorem produceFold_spec (cfg : TaggerConfig) (l : List (ℕ × PFParticle)) :
    ∀ st : Outputs,
      (l.foldl (produceStep cfg) st).tags =
          st.tags ++ (l.map Prod.snd).filterMap (processObject cfg) ∧
      (l.foldl (produceStep cfg) st).pfAssns.map Prod.fst =
          st.pfAssns.map Prod.fst ++ (l.filter (fun p => !p.2.axes.isEmpty)).map Prod.fst ∧
      (l.foldl (produceStep cfg) st).pfAssns.map Prod.snd =
          st.pfAssns.map Prod.snd ++
            List.range' st.tags.length
              ((l.map Prod.snd).filter (fun o => !o.axes.isEmpty)).length ∧
      (l.foldl (produceStep cfg) st).axisAssns.map Prod.fst =
          st.axisAssns.map Prod.fst ++
            ((l.map Prod.snd).filter (fun o => !o.axes.isEmpty)).flatMap
              (fun o => reorderAxes o.axes) := by
  induction l with
  | nil => intro st; simp
  | cons p rest ih =>
    intro st
    obtain ⟨i, o⟩ := p
    have hfold : (((i, o) :: rest).foldl (produceStep cfg) st) =
        rest.foldl (produceStep cfg) (produceStep cfg st (i, o)) := rfl
    cases hax : reorderAxes o.axes with
    | nil =>
      have h0 : o.axes = [] := (reorderAxes_nil_iff o.axes).mp hax
      have hstep : produceStep cfg st (i, o) = st := by
        simp [produceStep, hax]
      have hpo : processObject cfg o = none := (processObject_none_iff cfg o).mpr h0
      have hcond : (!o.axes.isEmpty) = false := by simp [h0]
      rw [hfold, hstep]
      obtain ⟨ih1, ih2, ih3, ih4⟩ := ih st
      refine ⟨?_, ?_, ?_, ?_⟩
      · rw [ih1]
        simp [List.filterMap_cons, hpo]
      · rw [ih2]
        simp [List.filter_cons, hcond]
      · rw [ih3]
        simp [List.filter_cons, hcond]
      · rw [ih4]
        simp [List.filter_cons, hcond]
    | cons ax restAxes =>
      have hpo := processObject_some cfg o ax restAxes hax
      have hcond : (!o.axes.isEmpty) = true := by
        cases hax2 : o.axes with
        | nil => rw [hax2] at hax; simp [reorderAxes] at hax
        | cons _ _ => rfl
      have hstep : produceStep cfg st (i, o) =
          ⟨st.tags ++ [tagObject cfg ax o.clusters o.spacePoints],
            st.pfAssns ++ [(i, st.tags.length)],
            st.axisAssns ++ (ax :: restAxes).map (fun a => (a, st.tags.length))⟩ := by
        simp [produceStep, hax]
      rw [hfold]
      obtain ⟨ih1, ih2, ih3, ih4⟩ := ih (produceStep cfg st (i, o))
      rw [hstep] at ih1 ih2 ih3 ih4
      rw [hstep]
      refine ⟨?_, ?_, ?_, ?_⟩
      · rw [ih1]
        simp [List.filterMap_cons, hpo]
      · rw [ih2]
        simp [List.filter_cons, hcond]
      · rw [ih3]
        simp [List.filter_cons, hcond, List.range'_succ]
      · rw [ih4]
        simp [List.filter_cons, hcond, List.flatMap_cons, hax, Function.comp_def]

/-- Counterexample to **C1**: an object whose timing filter set the flag
(`timingScan` level 1) and whose emitted endpoints satisfy the rule-1 trigger,
yet the emitted tag is `OutsideDrift_Partial` and not the rule-1 tag — the
boundary rules are *not* evaluated and cannot override the timing tag. -/
theorem c1_counterexample :
    (timingScan cfgA (0, CosmicTagID.notTagged) [[hitOut]]).1 = 1 ∧
    rule1Fires cfgA (tagObject cfgA axisCtr [[hitOut]] [⟨0, 0, 5⟩, ⟨10, 0, 5⟩]).endPt1
      (tagObject cfgA axisCtr [[hitOut]] [⟨0, 0, 5⟩, ⟨10, 0, 5⟩]).endPt2 = true ∧
    (tagObject cfgA axisCtr [[hitOut]] [⟨0, 0, 5⟩, ⟨10, 0, 5⟩]).tagID =
      CosmicTagID.outsideDrift ∧
    (tagObject cfgA axisCtr [[hitOut]] [⟨0, 0, 5⟩, ⟨10, 0, 5⟩]).tagID ≠
      rule1TagSpec cfgA (tagObject cfgA axisCtr [[hitOut]] [⟨0, 0, 5⟩, ⟨10, 0, 5⟩]).endPt1
        (tagObject cfgA axisCtr [[hitOut]] [⟨0, 0, 5⟩, ⟨10, 0, 5⟩]).endPt2 := by
  have hts : timingScan cfgA (0, CosmicTagID.notTagged) [[hitOut]] =
      (1, CosmicTagID.outsideDrift) := rfl
  have hno : ¬((timingScan cfgA (0, CosmicTagID.notTagged) [[hitOut]]).1 = 0 ∧
      ([⟨0, 0, 5⟩, ⟨10, 0, 5⟩] : List Vec3) ≠ []) := by
    rw [hts]
    rintro ⟨h0, -⟩
    exact absurd h0 (by decide)
  have htag := tagObject_notbd cfgA axisCtr [[hitOut]] [⟨0, 0, 5⟩, ⟨10, 0, 5⟩] (Or.inl hno)
  rw [hts] at htag
  have hfs : fallbackStart axisCtr = ⟨2, 0, 5⟩ := by
    norm_num [fallbackStart, axisCtr, Vec3.sub, Vec3.smul]
  have hfe : fallbackEnd axisCtr = ⟨8, 0, 5⟩ := by
    norm_num [fallbackEnd, axisCtr, Vec3.add, Vec3.smul]
  refine ⟨by rw [hts], ?_, ?_, ?_⟩
  · rw [htag]
    show rule1Fires cfgA (fallbackStart axisCtr) (fallbackEnd axisCtr) = true
    rw [hfs, hfe]
    norm_num [rule1Fires, exitEnd, nearXb, nearYb, nearZb, cfgA]
  · rw [htag]
  · rw [htag]
    show CosmicTagID.outsideDrift ≠
      rule1TagSpec cfgA (fallbackStart axisCtr) (fallbackEnd axisCtr)
    rw [hfs, hfe]
    have hxx : rule1TagSpec cfgA ⟨2, 0, 5⟩ ⟨8, 0, 5⟩ = CosmicTagID.geomXX := by
      norm_num [rule1TagSpec, chainTagSpec, nearXb, nearYb, nearZb, cfgA]
    rw [hxx]
    decide

/-- **C1** (amended): once the timing filter has set the cosmic level to 1,
the boundary classifier is skipped entirely — rules 1-3 are not evaluated and
cannot override — and the emitted tag is `OutsideDrift_Partial` with score
1.0 and the axis-derived fallback endpoints, regardless of geometry. -/
theorem c1_flag_emits_outside_drift (cfg : TaggerConfig) (axis : PCAxis)
    (clusters : List (List Hit)) (pts : List Vec3)
    (hflag : (timingScan cfg (0, CosmicTagID.notTagged) clusters).1 = 1) :
    tagObject cfg axis clusters pts =
      { endPt1 := fallbackStart axis, endPt2 := fallbackEnd axis, score := 1,
        tagID := CosmicTagID.outsideDrift } := by
  have hst := timingScan_one cfg clusters hflag
  have hno : ¬((timingScan cfg (0, CosmicTagID.notTagged) clusters).1 = 0 ∧ pts ≠ []) := by
    rintro ⟨h0, -⟩
    rw [hflag] at h0
    exact absurd h0 (by decide)
  rw [tagObject_notbd cfg axis clusters pts (Or.inl hno), hst]
  simp [scoreOf_values.2.1]

/-- Witness for the amended C1 at a concrete input. -/
theorem c1_witness :
    tagObject cfgA axisCtr [[hitOut]] [⟨0, 0, 5⟩] =
      { endPt1 := fallbackStart axisCtr, endPt2 := fallbackEnd axisCtr, score := 1,
        tagID := CosmicTagID.outsideDrift } :=
  c1_flag_emits_outside_drift cfgA axisCtr [[hitOut]] [⟨0, 0, 5⟩] (by decide)

/-- **C3** (confirmed): with the timing flag clear and a non-degenerate axis,
if every space point projects to an arc length at least 9999 the start
endpoint is never updated and stays the axis-derived fallback
`mean - 3*sqrt(e0)*dir`; dually, if every projection is at most -9999 the end
endpoint stays `mean + 3*sqrt(e0)*dir` — the extremal search initialises its
bounds to 9999 and -9999. -/
theorem c3_extremal_bounds (cfg : TaggerConfig) (axis : PCAxis)
    (clusters : List (List Hit)) (pts : List Vec3)
    (hflag : (timingScan cfg (0, CosmicTagID.notTagged) clusters).1 = 0)
    (he : 0 < axis.eigenVal0) (ht : 0 < axis.transRMS) :
    ((∀ p ∈ pts, 9999 ≤ arcLenTo axis p) →
      (tagObject cfg axis clusters pts).endPt1 = fallbackStart axis) ∧
    ((∀ p ∈ pts, arcLenTo axis p ≤ -9999) →
      (tagObject cfg axis clusters pts).endPt2 = fallbackEnd axis) := by
  constructor
  · intro hall
    by_cases hne : pts = []
    · subst hne
      rw [tagObject_notbd cfg axis clusters [] (Or.inl (fun hc => hc.2 rfl))]
    · rw [tagObject_boundary cfg axis clusters pts hflag hne he ht]
      show (projectedEndpoints axis pts).1 = fallbackStart axis
      rw [projectedEndpoints_eq]
      show (minScanQ (arcLenTo axis) (9999, fallbackStart axis) pts).2 = fallbackStart axis
      rw [minScanQ_const (arcLenTo axis) pts 9999 (fallbackStart axis)
        (fun p hp => not_lt.mpr (hall p hp))]
  · intro hall
    by_cases hne : pts = []
    · subst hne
      rw [tagObject_notbd cfg axis clusters [] (Or.inl (fun hc => hc.2 rfl))]
    · rw [tagObject_boundary cfg axis clusters pts hflag hne he ht]
      show (projectedEndpoints axis pts).2 = fallbackEnd axis
      rw [projectedEndpoints_eq]
      show (maxScanQ (arcLenTo axis) (-9999, fallbackEnd axis) pts).2 = fallbackEnd axis
      rw [maxScanQ_const (arcLenTo axis) pts (-9999) (fallbackEnd axis)
        (fun p hp => not_lt.mpr (hall p hp))]

/-- Witness for C3 at a concrete input: a single space point of arc length
10000 leaves the start endpoint at the fallback. -/
theorem c3_witness :
    (tagObject cfgA axisA [] [⟨10000, 0, 0⟩]).endPt1 = fallbackStart axisA :=
  (c3_extremal_bounds cfgA axisA [] [⟨10000, 0, 0⟩] rfl (by decide) (by decide)).1
    (by norm_num [arcLenTo, Vec3.dot, Vec3.sub, axisA])

/-- **C4** (confirmed): for an object reaching the boundary classifier
(timing flag clear, space points present, non-degenerate axis), priority
rule 1 fires exactly when
`(exit(start) AND exit(end)) OR (exit(start) AND nearZ(end)) OR
 (exit(start) AND nearZ(start))` — both cross terms gated on `exit(start)` —
and when it fires the result is cosmic level 2 and score 1.0 with the tag
chosen by the first-match chain XX / YY / XY / XZ / YZ; when it does not
fire, the score is not 1 and the tag is one of the non-rule-1 kinds. -/
theorem c4_rule1_trigger (cfg : TaggerConfig) (axis : PCAxis)
    (clusters : List (List Hit)) (pts : List Vec3)
    (hflag : (timingScan cfg (0, CosmicTagID.notTagged) clusters).1 = 0)
    (hne : pts ≠ []) (he : 0 < axis.eigenVal0) (ht : 0 < axis.transRMS) :
    (rule1Fires cfg (projectedEndpoints axis pts).1 (projectedEndpoints axis pts).2 = true →
      tagObject cfg axis clusters pts =
        { endPt1 := (projectedEndpoints axis pts).1,
          endPt2 := (projectedEndpoints axis pts).2,
          score := 1,
          tagID := rule1TagSpec cfg (projectedEndpoints axis pts).1
            (projectedEndpoints axis pts).2 } ∧
      (classifyBoundary cfg (projectedEndpoints axis pts).1 (projectedEndpoints axis pts).2
        0 CosmicTagID.notTagged).1 = 2) ∧
    (rule1Fires cfg (projectedEndpoints axis pts).1 (projectedEndpoints axis pts).2 = false →
      (tagObject cfg axis clusters pts).score ≠ 1 ∧
      (tagObject cfg axis clusters pts).tagID ∈
        [CosmicTagID.notTagged, CosmicTagID.geomZZ, CosmicTagID.geomX,
          CosmicTagID.geomY, CosmicTagID.geomZ]) := by
  have hTB := tagObject_boundary cfg axis clusters pts hflag hne he ht
  have hbd := boundaryDecision_rule1 (nearXb cfg (projectedEndpoints axis pts).1)
    (nearXb cfg (projectedEndpoints axis pts).2) (nearYb cfg (projectedEndpoints axis pts).1)
    (nearYb cfg (projectedEndpoints axis pts).2) (nearZb cfg (projectedEndpoints axis pts).1)
    (nearZb cfg (projectedEndpoints axis pts).2)
  constructor
  · intro hf
    have h2 : classifyBoundary cfg (projectedEndpoints axis pts).1
        (projectedEndpoints axis pts).2 0 CosmicTagID.notTagged =
        (2, chainTagSpec (nearXb cfg (projectedEndpoints axis pts).1)
          (nearXb cfg (projectedEndpoints axis pts).2)
          (nearYb cfg (projectedEndpoints axis pts).1)
          (nearYb cfg (projectedEndpoints axis pts).2)
          (nearZb cfg (projectedEndpoints axis pts).1)
          (nearZb cfg (projectedEndpoints axis pts).2)) := hbd.1 hf
    refine ⟨?_, by rw [h2]⟩
    rw [hTB, h2]
    simp [rule1TagSpec, scoreOf_values.2.2.1]
  · intro hf
    obtain ⟨hlev, hmem⟩ := hbd.2 hf
    rw [hTB]
    constructor
    · show scoreOf (classifyBoundary cfg (projectedEndpoints axis pts).1
        (projectedEndpoints axis pts).2 0 CosmicTagID.notTagged).1 ≠ 1
      rcases hlev with hl | hl | hl <;>
        rw [show (classifyBoundary cfg (projectedEndpoints axis pts).1
          (projectedEndpoints axis pts).2 0 CosmicTagID.notTagged).1 = _ from hl] <;>
        norm_num [scoreOf]
    · exact hmem

/-- Witness for C4 at a concrete input: a track spanning the two x faces
fires rule 1 and is tagged by the chain (here `Geometry_XX`). -/
theorem c4_witness :
    tagObject cfgA axisCtr [] [⟨0, 0, 5⟩, ⟨10, 0, 5⟩] =
      { endPt1 := (projectedEndpoints axisCtr [⟨0, 0, 5⟩, ⟨10, 0, 5⟩]).1,
        endPt2 := (projectedEndpoints axisCtr [⟨0, 0, 5⟩, ⟨10, 0, 5⟩]).2,
        score := 1,
        tagID := rule1TagSpec cfgA (projectedEndpoints axisCtr [⟨0, 0, 5⟩, ⟨10, 0, 5⟩]).1
          (projectedEndpoints axisCtr [⟨0, 0, 5⟩, ⟨10, 0, 5⟩]).2 } :=
  ((c4_rule1_trigger cfgA axisCtr [] [⟨0, 0, 5⟩, ⟨10, 0, 5⟩] rfl (by decide) (by decide)
    (by decide)).1 (by
      norm_num [rule1Fires, exitEnd, nearXb, nearYb, nearZb, projectedEndpoints,
        extremalScan, extremalStep, arcLenTo, Vec3.dot, Vec3.sub, fallbackStart,
        fallbackEnd, Vec3.smul, Vec3.add, cfgA, axisCtr])).1

/-- Counterexample to **C2**: an object satisfying all of C2's premises
(flag clear, non-degenerate axis, non-empty space points) whose unique space
point — hence the minimum-projection point — has arc length 10000 ≥ 9999, so
the start endpoint is *not* set to it (the extremal search never updates and
the fallback remains). -/
theorem c2_counterexample :
    (timingScan cfgA (0, CosmicTagID.notTagged) []).1 = 0 ∧
    0 < axisA.eigenVal0 ∧ 0 < axisA.transRMS ∧
    (⟨10000, 0, 0⟩ : Vec3) ∈ [(⟨10000, 0, 0⟩ : Vec3)] ∧
    (∀ q ∈ [(⟨10000, 0, 0⟩ : Vec3)],
      arcLenTo axisA ⟨10000, 0, 0⟩ ≤ arcLenTo axisA q) ∧
    (tagObject cfgA axisA [] [⟨10000, 0, 0⟩]).endPt1 ≠ ⟨10000, 0, 0⟩ := by
  refine ⟨rfl, by decide, by decide, by decide, ?_, ?_⟩
  · norm_num
  · norm_num [tagObject, timingScan, projectedEndpoints, extremalScan, extremalStep,
      arcLenTo, Vec3.dot, Vec3.sub, Vec3.add, Vec3.smul, fallbackStart, fallbackEnd,
      classifyBoundary, boundaryDecision, nearXb, nearYb, nearZb, scoreOf, cfgA, axisA,
      List.cons_ne_nil]

/-- **C2** (amended): with flag clear, non-degenerate axis and space points
present, *provided some projection lies below the 9999 start bound and some
projection above the -9999 end bound*, the emitted start/end endpoints are
the earliest-encountered minimum/maximum-projection space points; they are
members of the point set attaining the extreme projections; and for inputs
whose extremes are uniquely attained the endpoints are independent of the
order in which the space points are supplied (on exact ties the
earliest-encountered extremal point is kept, as `firstMin`/`firstMax`
formalise). -/
theorem c2_extremal_projection (cfg : TaggerConfig) (axis : PCAxis)
    (clusters : List (List Hit)) (pts : List Vec3)
    (hflag : (timingScan cfg (0, CosmicTagID.notTagged) clusters).1 = 0)
    (he : 0 < axis.eigenVal0) (ht : 0 < axis.transRMS)
    (hlow : ∃ p ∈ pts, arcLenTo axis p < 9999)
    (hhigh : ∃ p ∈ pts, -9999 < arcLenTo axis p) :
    ((firstMin (arcLenTo axis) pts).map Prod.snd =
        some (tagObject cfg axis clusters pts).endPt1) ∧
    ((firstMax (arcLenTo axis) pts).map Prod.snd =
        some (tagObject cfg axis clusters pts).endPt2) ∧
    ((tagObject cfg axis clusters pts).endPt1 ∈ pts ∧
      ∀ q ∈ pts, arcLenTo axis (tagObject cfg axis clusters pts).endPt1 ≤ arcLenTo axis q) ∧
    ((tagObject cfg axis clusters pts).endPt2 ∈ pts ∧
      ∀ q ∈ pts, arcLenTo axis q ≤ arcLenTo axis (tagObject cfg axis clusters pts).endPt2) ∧
    (∀ pts' : List Vec3, pts'.Perm pts →
      (∀ q ∈ pts, arcLenTo axis q = arcLenTo axis (tagObject cfg axis clusters pts).endPt1 →
        q = (tagObject cfg axis clusters pts).endPt1) →
      (∀ q ∈ pts, arcLenTo axis q = arcLenTo axis (tagObject cfg axis clusters pts).endPt2 →
        q = (tagObject cfg axis clusters pts).endPt2) →
      (tagObject cfg axis clusters pts').endPt1 = (tagObject cfg axis clusters pts).endPt1 ∧
      (tagObject cfg axis clusters pts').endPt2 = (tagObject cfg axis clusters pts).endPt2) := by
  have hne : pts ≠ [] := by
    obtain ⟨p₀, hp₀, -⟩ := hlow
    intro hE
    rw [hE] at hp₀
    exact absurd hp₀ (List.not_mem_nil p₀)
  obtain ⟨m, w, hfm, hmlt, hminscan⟩ :=
    minScanQ_firstMin (arcLenTo axis) pts 9999 (fallbackStart axis) hlow
  obtain ⟨M, W, hfM, hMlt, hmaxscan⟩ :=
    maxScanQ_firstMax (arcLenTo axis) pts (-9999) (fallbackEnd axis) hhigh
  have hTB := tagObject_boundary cfg axis clusters pts hflag hne he ht
  have hend1 : (tagObject cfg axis clusters pts).endPt1 = w := by
    rw [hTB]
    show (projectedEndpoints axis pts).1 = w
    rw [projectedEndpoints_eq]
    show (minScanQ (arcLenTo axis) (9999, fallbackStart axis) pts).2 = w
    rw [hminscan]
  have hend2 : (tagObject cfg axis clusters pts).endPt2 = W := by
    rw [hTB]
    show (projectedEndpoints axis pts).2 = W
    rw [projectedEndpoints_eq]
    show (maxScanQ (arcLenTo axis) (-9999, fallbackEnd axis) pts).2 = W
    rw [hmaxscan]
  obtain ⟨hwmem, hwval, hwmin⟩ := firstMin_spec (arcLenTo axis) pts m w hfm
  obtain ⟨hWmem, hWval, hWmax⟩ := firstMax_spec (arcLenTo axis) pts M W hfM
  refine ⟨?_, ?_, ?_, ?_, ?_⟩
  · rw [hfm, hend1]
    rfl
  · rw [hfM, hend2]
    rfl
  · rw [hend1]
    exact ⟨hwmem, fun q hq => hwval ▸ hwmin q hq⟩
  · rw [hend2]
    exact ⟨hWmem, fun q hq => hWval ▸ hWmax q hq⟩
  · intro pts' hperm huniq1 huniq2
    have hne' : pts' ≠ [] := by
      intro hE
      rw [hE] at hperm
      exact hne hperm.symm.eq_nil
    have hlow' : ∃ p ∈ pts', arcLenTo axis p < 9999 := by
      obtain ⟨p, hp, hv⟩ := hlow
      exact ⟨p, hperm.mem_iff.mpr hp, hv⟩
    have hhigh' : ∃ p ∈ pts', -9999 < arcLenTo axis p := by
      obtain ⟨p, hp, hv⟩ := hhigh
      exact ⟨p, hperm.mem_iff.mpr hp, hv⟩
    obtain ⟨m', w', hfm', hmlt', hminscan'⟩ :=
      minScanQ_firstMin (arcLenTo axis) pts' 9999 (fallbackStart axis) hlow'
    obtain ⟨M', W', hfM', hMlt', hmaxscan'⟩ :=
      maxScanQ_firstMax (arcLenTo axis) pts' (-9999) (fallbackEnd axis) hhigh'
    obtain ⟨hw'mem, hw'val, hw'min⟩ := firstMin_spec (arcLenTo axis) pts' m' w' hfm'
    obtain ⟨hW'mem, hW'val, hW'max⟩ := firstMax_spec (arcLenTo axis) pts' M' W' hfM'
    have hTB' := tagObject_boundary cfg axis clusters pts' hflag hne' he ht
    have hend1' : (tagObject cfg axis clusters pts').endPt1 = w' := by
      rw [hTB']
      show (projectedEndpoints axis pts').1 = w'
      rw [projectedEndpoints_eq]
      show (minScanQ (arcLenTo axis) (9999, fallbackStart axis) pts').2 = w'
      rw [hminscan']
    have hend2' : (tagObject cfg axis clusters pts').endPt2 = W' := by
      rw [hTB']
      show (projectedEndpoints axis pts').2 = W'
      rw [projectedEndpoints_eq]
      show (maxScanQ (arcLenTo axis) (-9999, fallbackEnd axis) pts').2 = W'
      rw [hmaxscan']
    have hmm' : m = m' := by
      apply le_antisymm
      · calc m ≤ arcLenTo axis w' := hwmin w' (hperm.mem_iff.mp hw'mem)
          _ = m' := hw'val
      · calc m' ≤ arcLenTo axis w := hw'min w (hperm.mem_iff.mpr hwmem)
          _ = m := hwval
    have hMM' : M = M' := by
      apply le_antisymm
      · calc M = arcLenTo axis W := hWval.symm
          _ ≤ M' := hW'max W (hperm.mem_iff.mpr hWmem)
      · calc M' = arcLenTo axis W' := hW'val.symm
          _ ≤ M := hWmax W' (hperm.mem_iff.mp hW'mem)
    constructor
    · have hval : arcLenTo axis w' =
          arcLenTo axis (tagObject cfg axis clusters pts).endPt1 := by
        rw [hend1, hwval, hw'val]
        exact hmm'.symm
      have hww := huniq1 w' (hperm.mem_iff.mp hw'mem) hval
      rw [hend1] at hww
      rw [hend1', hend1]
      exact hww
    · have hval : arcLenTo axis W' =
          arcLenTo axis (tagObject cfg axis clusters pts).endPt2 := by
        rw [hend2, hWval, hW'val]
        exact hMM'.symm
      have hWW := huniq2 W' (hperm.mem_iff.mp hW'mem) hval
      rw [hend2] at hWW
      rw [hend2', hend2]
      exact hWW

/-- Witness for the amended C2 at a concrete input with projections
`[-3, 7, -10, 0]`: the endpoints are the earliest minimum/maximum projection
points. -/
theorem c2_witness :
    ((firstMin (arcLenTo axisA) [⟨-3, 0, 0⟩, ⟨7, 0, 0⟩, ⟨-10, 0, 0⟩, ⟨0, 0, 0⟩]).map
        Prod.snd =
      some (tagObject cfgA axisA []
        [⟨-3, 0, 0⟩, ⟨7, 0, 0⟩, ⟨-10, 0, 0⟩, ⟨0, 0, 0⟩]).endPt1) ∧
    ((firstMax (arcLenTo axisA) [⟨-3, 0, 0⟩, ⟨7, 0, 0⟩, ⟨-10, 0, 0⟩, ⟨0, 0, 0⟩]).map
        Prod.snd =
      some (tagObject cfgA axisA []
        [⟨-3, 0, 0⟩, ⟨7, 0, 0⟩, ⟨-10, 0, 0⟩, ⟨0, 0, 0⟩]).endPt2) := by
  have h := c2_extremal_projection cfgA axisA []
    [⟨-3, 0, 0⟩, ⟨7, 0, 0⟩, ⟨-10, 0, 0⟩, ⟨0, 0, 0⟩] rfl (by decide) (by decide)
    ⟨⟨-3, 0, 0⟩, List.mem_cons_self _ _,
      by norm_num [arcLenTo, Vec3.dot, Vec3.sub, axisA]⟩
    ⟨⟨-3, 0, 0⟩, List.mem_cons_self _ _,
      by norm_num [arcLenTo, Vec3.dot, Vec3.sub, axisA]⟩
  exact ⟨h.1, h.2.1⟩

/-- Counterexample to **C6**: an event whose space-point associations are all
empty (the space-point collection is empty at event scope) but whose handles
are valid and which contains one object with an axis: the outputs are *not*
empty — the object is still tagged via the fallback endpoints. -/
theorem c6_counterexample :
    (∀ o ∈ [PFParticle.mk [axisA] [] []], o.spacePoints = ([] : List Vec3)) ∧
    (produceEvent cfgA ⟨some [PFParticle.mk [axisA] [] []], true, true⟩).tags.length = 1 ∧
    (produceEvent cfgA ⟨some [PFParticle.mk [axisA] [] []], true, true⟩).pfAssns =
      [(0, 0)] ∧
    (produceEvent cfgA ⟨some [PFParticle.mk [axisA] [] []], true, true⟩).axisAssns.length =
      1 := by
  refine ⟨by simp, ?_, ?_, ?_⟩ <;>
    norm_num [produceEvent, produceStep, List.enum, List.enumFrom, reorderAxes, Outputs.mk]

/-- **C6** (amended): if the PFParticle collection handle, the cluster
collection handle or the PCAxis collection handle is absent/invalid, all
three output collections are emitted empty with no error signaled; likewise
an event whose objects all have zero associated axes yields empty outputs.
(Absent or empty space-point associations do *not* force empty outputs; see
the counterexample.) -/
theorem c6_degenerate_inputs (cfg : TaggerConfig) (ev : EventInput) :
    ((ev.pfParticles = none ∨ ev.clustersValid = false ∨ ev.pcAxesValid = false) →
      (produceEvent cfg ev).tags = [] ∧ (produceEvent cfg ev).pfAssns = [] ∧
        (produceEvent cfg ev).axisAssns = []) ∧
    (∀ objs : List PFParticle, (∀ o ∈ objs, o.axes = []) →
      (produceEvent cfg ⟨some objs, true, true⟩).tags = [] ∧
        (produceEvent cfg ⟨some objs, true, true⟩).pfAssns = [] ∧
        (produceEvent cfg ⟨some objs, true, true⟩).axisAssns = []) := by
  constructor
  · intro h
    obtain ⟨pf, cv, av⟩ := ev
    rcases h with h | h | h <;> simp only at h <;> subst h
    · exact ⟨rfl, rfl, rfl⟩
    · cases pf with
      | none => exact ⟨rfl, rfl, rfl⟩
      | some objs => simp [produceEvent]
    · cases pf with
      | none => exact ⟨rfl, rfl, rfl⟩
      | some objs => simp [produceEvent]
  · intro objs hall
    have hpe : produceEvent cfg ⟨some objs, true, true⟩ =
        objs.enum.foldl (produceStep cfg) ⟨[], [], []⟩ := rfl
    obtain ⟨h1, h2, h3, h4⟩ := produceFold_spec cfg objs.enum ⟨[], [], []⟩
    rw [List.enum_map_snd] at h1 h3 h4
    have hfilter : objs.filter (fun o => !o.axes.isEmpty) = [] := by
      rw [List.filter_eq_nil_iff]
      intro o ho
      simp [hall o ho]
    have hfilter2 : objs.enum.filter (fun p => !p.2.axes.isEmpty) = [] := by
      rw [List.filter_eq_nil_iff]
      intro p hp
      have : p.2 ∈ objs := by
        have := List.mem_map_of_mem Prod.snd hp
        rwa [List.enum_map_snd] at this
      simp [hall p.2 this]
    have htags : (objs.enum.foldl (produceStep cfg) ⟨[], [], []⟩).tags = [] := by
      rw [h1]
      simp only [List.nil_append]
      rw [List.filterMap_eq_nil_iff]
      intro o ho
      exact (processObject_none_iff cfg o).mpr (hall o ho)
    have hpf : (objs.enum.foldl (produceStep cfg) ⟨[], [], []⟩).pfAssns = [] := by
      have := h2
      rw [hfilter2] at this
      simpa using this
    have haxis : (objs.enum.foldl (produceStep cfg) ⟨[], [], []⟩).axisAssns = [] := by
      have := h4
      rw [hfilter] at this
      simpa using this
    rw [hpe]
    exact ⟨htags, hpf, haxis⟩

/-- Witness for the amended C6 at a concrete input: an invalid PFParticle
handle yields three empty outputs. -/
theorem c6_witness :
    (produceEvent cfgA ⟨none, true, true⟩).tags = [] ∧
      (produceEvent cfgA ⟨none, true, true⟩).pfAssns = [] ∧
      (produceEvent cfgA ⟨none, true, true⟩).axisAssns = [] :=
  (c6_degenerate_inputs cfgA ⟨none, true, true⟩).1 (Or.inl rfl)

/-- **C8** (confirmed): the emitted score always lies in
`{0, 0.4, 0.5, 1}` and is a deterministic pure function of the tag kind:
`NotTagged ↦ 0`, `Geometry_ZZ ↦ 0.4`, `Geometry_X/Y/Z ↦ 0.5`,
`OutsideDrift_Partial` and the remaining Geometry kinds `↦ 1`; this holds for
every tag produced at event scope. -/
theorem c8_score_table (cfg : TaggerConfig) (axis : PCAxis) (clusters : List (List Hit))
    (pts : List Vec3) :
    ((tagObject cfg axis clusters pts).score =
      tagScoreSpec (tagObject cfg axis clusters pts).tagID) ∧
    ((tagObject cfg axis clusters pts).score = 0 ∨
      (tagObject cfg axis clusters pts).score = 2/5 ∨
      (tagObject cfg axis clusters pts).score = 1/2 ∨
      (tagObject cfg axis clusters pts).score = 1) ∧
    (∀ objs : List PFParticle, ∀ t ∈ (produceEvent cfg ⟨some objs, true, true⟩).tags,
      t.score = tagScoreSpec t.tagID) := by
  refine ⟨tagObject_score_pure cfg axis clusters pts, ?_, ?_⟩
  · rw [tagObject_score_pure cfg axis clusters pts]
    exact tagScoreSpec_range _
  · intro objs t ht
    have h1 := (produceFold_spec cfg objs.enum ⟨[], [], []⟩).1
    have hpe : produceEvent cfg ⟨some objs, true, true⟩ =
        objs.enum.foldl (produceStep cfg) ⟨[], [], []⟩ := rfl
    rw [hpe, h1, List.enum_map_snd] at ht
    simp only [List.nil_append] at ht
    obtain ⟨obj, hobjmem, hpo⟩ := List.mem_filterMap.mp ht
    cases hax : reorderAxes obj.axes with
    | nil =>
      rw [(processObject_none_iff cfg obj).mpr ((reorderAxes_nil_iff obj.axes).mp hax)]
        at hpo
      simp at hpo
    | cons ax r =>
      rw [processObject_some cfg obj ax r hax] at hpo
      rw [← Option.some.inj hpo]
      exact tagObject_score_pure cfg ax obj.clusters obj.spacePoints

/-- **C9** (confirmed): an object with zero associated axes produces no tag
and no associations; the tag sequence holds exactly one tag per object that
had at least one axis, in the objects' original order; the object-to-tag
table names exactly the tagged objects' indices with consecutive tag
indices; and the axis-to-tag table receives one entry per axis of each
tagged object — the reordered axis list, which is a permutation of (hence
exactly) the originally associated axes, non-canonical ones included. -/
theorem c9_result_emitter (cfg : TaggerConfig) (objs : List PFParticle) :
    ((produceEvent cfg ⟨some objs, true, true⟩).tags =
      objs.filterMap (processObject cfg)) ∧
    (∀ obj : PFParticle, processObject cfg obj = none ↔ obj.axes = []) ∧
    ((produceEvent cfg ⟨some objs, true, true⟩).pfAssns.map Prod.fst =
      (objs.enum.filter (fun p => !p.2.axes.isEmpty)).map Prod.fst) ∧
    ((produceEvent cfg ⟨some objs, true, true⟩).pfAssns.map Prod.snd =
      List.range (produceEvent cfg ⟨some objs, true, true⟩).tags.length) ∧
    ((produceEvent cfg ⟨some objs, true, true⟩).axisAssns.map Prod.fst =
      (objs.filter (fun o => !o.axes.isEmpty)).flatMap (fun o => reorderAxes o.axes)) ∧
    (∀ l : List PCAxis, (reorderAxes l).Perm l) := by
  have hpe : produceEvent cfg ⟨some objs, true, true⟩ =
      objs.enum.foldl (produceStep cfg) ⟨[], [], []⟩ := rfl
  obtain ⟨h1, h2, h3, h4⟩ := produceFold_spec cfg objs.enum ⟨[], [], []⟩
  rw [List.enum_map_snd] at h1 h3 h4
  simp only [List.map_nil, List.length_nil, List.nil_append] at h1 h2 h3 h4
  refine ⟨?_, processObject_none_iff cfg, ?_, ?_, ?_, reorderAxes_perm⟩
  · rw [hpe]
    exact h1
  · rw [hpe]
    exact h2
  · rw [hpe]
    have hlen : (objs.enum.foldl (produceStep cfg) ⟨[], [], []⟩).tags.length =
        (objs.filter (fun o => !o.axes.isEmpty)).length := by
      rw [h1, processObject_filterMap_length]
    rw [h3, hlen, List.range_eq_range']
  · rw [hpe]
    exact h4
